import Mathlib

/-!
Verification of the file-synchronization core of `bookshelf_manager`
(`src/bookshelf_manager/sync.py`), shallowly embedded in Lean 4.

Bytes are modelled as natural numbers below 256, byte strings as
`List Nat`, file contents as byte strings, and the directory tree of one
side as an association list from (relative, stringly) paths to contents.
The blocking socket is modelled as a byte stream (`List Nat`) together
with a fragmentation schedule: each `recv` call returns at least one and
at most `schedule entry` bytes while the stream is non-empty, and zero
bytes (peer closed) once it is exhausted, exactly the cases the Python
loops distinguish.
-/

namespace BookshelfSync

/-! ## Byte-level framing (`SocketCommunication.send_num_bytes`,
`send_bytes`, `receive_num_bytes`, `receive_bytes`, sync.py lines 58-116) -/

/-- Big-endian encoding of `n` into `w` bytes, the semantics of
`struct.pack` with an unsigned big-endian width-`w` format (low byte
last).  For `n < 256 ^ w` this is exact; `struct.pack` itself raises for
larger `n`, which `structPackQ` models. -/
def natToBE : Nat → Nat → List Nat
  | 0, _ => []
  | w + 1, n => natToBE w (n / 256) ++ [n % 256]

/-- The 8-byte header written by `send_num_bytes` (line 62:
`struct.pack(">Q", amount)`). -/
def natToBE8 (n : Nat) : List Nat := natToBE 8 n

/-- Big-endian decoding, the semantics of `struct.unpack(">Q", data)[0]`
(line 101). -/
def beToNat (bs : List Nat) : Nat := bs.foldl (fun a b => a * 256 + b) 0

/-- `struct.pack(">Q", n)`: defined only for `n < 2 ^ 64`; Python's
`struct` raises `struct.error` outside that range. -/
def structPackQ (n : Nat) : Option (List Nat) :=
  if n < 2 ^ 64 then some (natToBE8 n) else none

/-- The validation at the top of `send_num_bytes` (line 59):
`amount < 0 or amount > 2**64` raises `ValueError`.  Returns `true` when
the `ValueError` is raised. -/
def sendNumBytesRaises (amount : Int) : Bool :=
  amount < 0 || amount > 2 ^ 64

/-- `send_bytes` without encryption (lines 65-72): write the 8-byte
big-endian length header, then the payload (`struct.pack(f">{size}s", data)`
with `size = len(data)` is the identity on the payload). -/
def sendBytesPlain (data : List Nat) : List Nat :=
  natToBE8 data.length ++ data

/-- One `clientsocket.recv(r)` call on a stream, under a fragmentation
bound `k` imposed by the environment: it returns at most
`min k r` bytes and, while the stream is non-empty, at least one byte;
an empty stream yields zero bytes (peer closed). -/
def recvChunk (stream : List Nat) (k r : Nat) : List Nat × List Nat :=
  let t := min (min k r) stream.length
  (stream.take t, stream.drop t)

/-- The shared receive loop of `receive_num_bytes` (lines 95-100) and
`receive_bytes` (lines 107-112): accumulate into `acc` until `target`
bytes are held, requesting `min (target - got) cap` each time
(`cap = 8` for the header loop, `cap = 2 ^ 20` for the payload loop);
a zero-byte `recv` raises `SocketClosedError`, modelled as `none`.
The schedule lists the fragmentation bound of each successive `recv`;
running out of schedule models a read that blocks forever. -/
def recvLoop (cap : Nat) : List Nat → List Nat → Nat → List Nat →
    Option (List Nat × List Nat × List Nat)
  | sched, stream, target, acc =>
    if target ≤ acc.length then some (acc, stream, sched)
    else
      match sched with
      | [] => none
      | k :: sched' =>
        let r := min (target - acc.length) cap
        let t := min (min k r) stream.length
        if t = 0 then none
        else recvLoop cap sched' (stream.drop t) target (acc ++ stream.take t)

/-- `receive_num_bytes` (lines 91-102): read exactly 8 bytes and decode
them big-endian. -/
def receiveNumBytes (sched stream : List Nat) :
    Option (Nat × List Nat × List Nat) :=
  match recvLoop 8 sched stream 8 [] with
  | none => none
  | some (data, stream', sched') => some (beToNat data, stream', sched')

/-- `receive_bytes` without decryption (lines 104-116): read the length
header, then exactly that many payload bytes
(`struct.unpack(f">{msglen}s", all_data)[0]` is the identity). -/
def receiveBytesPlain (sched stream : List Nat) :
    Option (List Nat × List Nat × List Nat) :=
  match receiveNumBytes sched stream with
  | none => none
  | some (msglen, stream', sched') =>
    match recvLoop (2 ^ 20) sched' stream' msglen [] with
    | none => none
    | some (data, stream'', sched'') => some (data, stream'', sched'')

/-! ## Session-level model

Message-level embedding of the sync protocol.  A frame after the
handshake always carries one JSON message or one raw data payload, so
the post-handshake byte stream of each direction is modelled as a list
of typed messages; reading from an exhausted list is the peer closing
the stream, which `receive_num_bytes` turns into `SocketClosedError`. -/

/-- Errors a session can raise; `typeError` stands for the uncaught
Python errors on a malformed message (`TypeError` in `receive_file`,
`KeyError` on a missing field). -/
inductive SyncErr : Type
  | socketClosed
  | passwordMismatch
  | typeError
  | keyboardInterrupt
deriving DecidableEq

/-- Server-to-client messages: the strict-mode manifest
(`send_info` at line 157), a per-file offer (`send_info` at line 164),
and the two halves of `send_file` (lines 80-89). -/
inductive SMsg : Type
  | pathsMsg (ps : List String)
  | offer (path hash : String)
  | fileInfo (ty path : String)
  | fileData (bs : List Nat)
deriving DecidableEq

/-- Client-to-server messages (`send_info` at lines 185, 191, 207), plus
`interrupt`, which models a KeyboardInterrupt signal delivered while the
server blocks on that read. -/
inductive CMsg : Type
  | strictMsg (b : Bool)
  | wanted (b : Bool)
  | interrupt
deriving DecidableEq

/-- A directory tree as the client sees it: association list from the
relative path string to the file bytes; the head entry shadows older
ones, matching `Path.write_bytes` overwriting. -/
abbrev FileMap := List (String × List Nat)

def lookupFile : FileMap → String → Option (List Nat)
  | [], _ => none
  | (q, c) :: fs, p => if q = p then some c else lookupFile fs p

/-- `path.write_bytes(file)`: the new content shadows any old one. -/
def writeFile (fs : FileMap) (p : String) (c : List Nat) : FileMap :=
  (p, c) :: fs

/-- The message announcing one file, as decoded by `receive_file`
(lines 123-130). -/
structure FileMsg where
  ty : String
  path : String
deriving DecidableEq

/-- `SocketCommunication.receive_file` (lines 123-130): decode the
announcement, check its type tag, then write the following data frame to
`Path(info["path"])`.  The `directory` parameter of the Python function
is bound but never read, and the write target is taken verbatim from
the message. -/
def receiveFile (info : FileMsg) (data : List Nat) (fs : FileMap)
    (directory : String) : Except SyncErr FileMap :=
  if info.ty = "file" then .ok (writeFile fs info.path data)
  else .error .typeError

deriving instance DecidableEq for Except

/-- Result of the body of the client's fetch loop before the
`except SocketClosedError` handler runs: the raised error (the
`while True` loop can only exit by an exception), the tree, and the
messages sent. -/
structure LoopOut where
  res : Except SyncErr Unit
  fs : FileMap
  sent : List CMsg
deriving DecidableEq

/-! The body of the client's `while True` fetch loop
(`SyncClient.start` lines 226-239 with `get_file` lines 184-188 and
`refuse_file` lines 190-191): receive an offer, decide `wanted` from
exclusion, existence, and hash comparison, send the decision, and on
`wanted` receive the file message plus the data frame, writing the bytes
at the path carried by the file message. -/
mutual

/-- Loop entry: receive the next offer (or hit the closed stream) and
decide `wanted` exactly as lines 228-237 do. -/
def clientLoopRaw (hashC : List Nat → String) (excludePaths : List String) :
    List SMsg → FileMap → LoopOut
  | [], fs => ⟨.error .socketClosed, fs, []⟩
  | .offer p h :: rest, fs =>
    let wanted : Bool :=
      if p ∈ excludePaths then false
      else
        match lookupFile fs p with
        | none => true
        | some c => decide (hashC c ≠ h)
    if wanted then clientGetFileStep hashC excludePaths rest fs
    else
      let r := clientLoopRaw hashC excludePaths rest fs
      ⟨r.res, r.fs, .wanted false :: r.sent⟩
  | _ :: _, fs => ⟨.error .typeError, fs, []⟩
termination_by msgs _ => msgs.length

/-- `get_file` (lines 184-188): having sent `wanted: true`, receive the
file message (checking the `"file"` tag before touching the data, as
`receive_file` does) and the data frame, write the bytes at the path the
file message carries, then resume the loop. -/
def clientGetFileStep (hashC : List Nat → String)
    (excludePaths : List String) : List SMsg → FileMap → LoopOut
  | [], fs => ⟨.error .socketClosed, fs, [.wanted true]⟩
  | .fileInfo ty p2 :: .fileData bs :: rest3, fs =>
    if ty = "file" then
      let r := clientLoopRaw hashC excludePaths rest3 (writeFile fs p2 bs)
      ⟨r.res, r.fs, .wanted true :: r.sent⟩
    else ⟨.error .typeError, fs, [.wanted true]⟩
  | .fileInfo ty _ :: [], fs =>
    if ty = "file" then ⟨.error .socketClosed, fs, [.wanted true]⟩
    else ⟨.error .typeError, fs, [.wanted true]⟩
  | _ :: _, fs => ⟨.error .typeError, fs, [.wanted true]⟩
termination_by msgs _ => msgs.length

end

/-- Outcome of a client session: the post-handshake messages it sent,
its final tree, the result surfaced to the caller, and how many times
`client_socket.close()` ran. -/
structure ClientRun where
  sent : List CMsg
  fs : FileMap
  res : Except SyncErr Unit
  socketCloses : Nat
deriving DecidableEq

/-- The `try ... except SocketClosedError: pass ... finally` wrapper
around the fetch loop (lines 225-244): a `SocketClosedError` anywhere in
the loop body is swallowed, every exit shuts down and closes the
socket exactly once. -/
def clientFetchPhase (hashC : List Nat → String) (excludePaths : List String)
    (incoming : List SMsg) (fs : FileMap) : ClientRun :=
  let r := clientLoopRaw hashC excludePaths incoming fs
  let res : Except SyncErr Unit :=
    match r.res with
    | .error .socketClosed => .ok ()
    | other => other
  ⟨r.sent, r.fs, res, 1⟩

/-- `SocketCommunication.client_handshake` (lines 50-56), with the key
derivation (`PBKDF2HMAC` + base64, `setup_key`) and `sha256(·).hexdigest()`
abstracted as `kdfKey` and `sha256hex`: receive the salt, derive the key,
and compare the received hash with the local one. -/
def clientHandshake (kdfKey : String → List Nat → String)
    (sha256hex : String → String) (cpw : String) (salt : List Nat)
    (recvHash : String) : Except SyncErr Unit :=
  if recvHash ≠ sha256hex (kdfKey cpw salt) then .error .passwordMismatch
  else .ok ()

/-- The hash frame the server sends in `server_handshake` (lines 43-48):
the hex sha256 of its own derived key. -/
def serverHandshakeHash (kdfKey : String → List Nat → String)
    (sha256hex : String → String) (spw : String) (salt : List Nat) : String :=
  sha256hex (kdfKey spw salt)

/-- `SyncClient.start` (lines 193-244) against a server holding password
`spw`: connect and handshake (lines 204-205, before any `try`, so a
failure there closes nothing); send the strict flag (line 207); in
strict mode receive the manifest and delete local files neither kept nor
excluded (lines 208-216) — the directory-removal loop (lines 218-224)
iterates the `pathiter` generator already exhausted by the file loop, so
it removes nothing — and finally run the fetch loop under its
`try/except/finally` (lines 225-244). -/
def clientStart (kdfKey : String → List Nat → String)
    (sha256hex : String → String) (hashC : List Nat → String)
    (cpw spw : String) (salt : List Nat) (excludePaths : List String)
    (strict : Bool) (incoming : List SMsg) (fs : FileMap) : ClientRun :=
  match clientHandshake kdfKey sha256hex cpw salt
      (serverHandshakeHash kdfKey sha256hex spw salt) with
  | .error e => ⟨[], fs, .error e, 0⟩
  | .ok () =>
    if strict then
      match incoming with
      | .pathsMsg ps :: rest =>
        let fs1 := fs.filter (fun pc => ps.contains pc.1 || excludePaths.contains pc.1)
        let r := clientFetchPhase hashC excludePaths rest fs1
        ⟨.strictMsg true :: r.sent, r.fs, r.res, r.socketCloses⟩
      | [] => ⟨[.strictMsg true], fs, .error .socketClosed, 0⟩
      | _ :: _ => ⟨[.strictMsg true], fs, .error .typeError, 0⟩
    else
      let r := clientFetchPhase hashC excludePaths incoming fs
      ⟨.strictMsg false :: r.sent, r.fs, r.res, r.socketCloses⟩

/-- One `receive_info` on the server side: an exhausted stream raises
`SocketClosedError`; an interrupt signal delivered at this blocking read
raises `KeyboardInterrupt`. -/
def serverRecvInfo : List CMsg → Except SyncErr (CMsg × List CMsg)
  | [] => .error .socketClosed
  | .interrupt :: _ => .error .keyboardInterrupt
  | m :: rest => .ok (m, rest)

/-- The server's per-file loop (lines 161-167): offer each enumerated
file with its hash, read the `wanted` reply, and send the file message
followed by the data frame when the client wants it.  Returns what the
try body would raise together with the messages sent. -/
def serverLoopRaw (hashC : List Nat → String) :
    List (String × List Nat) → List CMsg → Except SyncErr Unit × List SMsg
  | [], _ => (.ok (), [])
  | (p, c) :: files, incoming =>
    match serverRecvInfo incoming with
    | .error e => (.error e, [.offer p (hashC c)])
    | .ok (.wanted b, rest) =>
      if b then
        let r := serverLoopRaw hashC files rest
        (r.1, .offer p (hashC c) :: .fileInfo "file" p :: .fileData c :: r.2)
      else
        let r := serverLoopRaw hashC files rest
        (r.1, .offer p (hashC c) :: r.2)
    | .ok (_, _) => (.error .typeError, [.offer p (hashC c)])

/-- The whole try body of `SyncServer.start` (lines 153-167): read the
strict flag, send the manifest when strict, then run the per-file
loop over the `rglob` enumeration `files`. -/
def serverBodyRaw (hashC : List Nat → String)
    (files : List (String × List Nat)) (incoming : List CMsg) :
    Except SyncErr Unit × List SMsg :=
  match serverRecvInfo incoming with
  | .error e => (.error e, [])
  | .ok (.strictMsg s, rest) =>
    if s then
      let r := serverLoopRaw hashC files rest
      (r.1, .pathsMsg (files.map Prod.fst) :: r.2)
    else serverLoopRaw hashC files rest
  | .ok (_, _) => (.error .typeError, [])

/-- Outcome of a server session: messages sent, the result surfaced to
the caller, and how many times the accepted connection socket and the
listening socket were closed. -/
structure ServerRun where
  sent : List SMsg
  res : Except SyncErr Unit
  connCloses : Nat
  listenCloses : Nat
deriving DecidableEq

/-- `SyncServer.start` (lines 146-173) after accept and handshake: the
try body runs under `except KeyboardInterrupt: pass` and a `finally`
that shuts down and closes the connection socket; `server_socket.close()`
on line 173 sits after the try statement, so it runs only when nothing
propagates out of it. -/
def serverStart (hashC : List Nat → String)
    (files : List (String × List Nat)) (incoming : List CMsg) : ServerRun :=
  let r := serverBodyRaw hashC files incoming
  match r.1 with
  | .ok () => ⟨r.2, .ok (), 1, 1⟩
  | .error .keyboardInterrupt => ⟨r.2, .ok (), 1, 1⟩
  | .error e => ⟨r.2, .error e, 1, 0⟩

/-- The lock-step transcript of one non-strict fetch phase: for each
enumerated server file, the offer, the client's decision computed
exactly as the loop body computes it (no exclusions), and the file
transfer when wanted, threading the client tree through. -/
def sessionTrace (hashC : List Nat → String) :
    List (String × List Nat) → FileMap → List SMsg × List CMsg × FileMap
  | [], fs => ([], [], fs)
  | (p, c) :: files, fs =>
    let wanted : Bool :=
      match lookupFile fs p with
      | none => true
      | some c0 => decide (hashC c0 ≠ hashC c)
    if wanted then
      let t := sessionTrace hashC files (writeFile fs p c)
      (.offer p (hashC c) :: .fileInfo "file" p :: .fileData c :: t.1,
        .wanted true :: t.2.1, t.2.2)
    else
      let t := sessionTrace hashC files fs
      (.offer p (hashC c) :: t.1, .wanted false :: t.2.1, t.2.2)

/-- The server tree of Scenario A:
`a.txt` holding "hello" and `b/c.txt` holding "world". -/
def scenarioAFiles : List (String × List Nat) :=
  [("a.txt", [104, 101, 108, 108, 111]),
   ("b/c.txt", [119, 111, 114, 108, 100])]

/-! ## The strict-mode prune pass, with directories (`SyncClient.start`
lines 208-224).  Paths are component lists; `PyTree` holds the files and
the directories under the sync root. -/

structure PyTree where
  files : List (List String)
  dirs : List (List String)
deriving DecidableEq

/-- `root.rglob("*")`: one generator enumerating every file and
directory under the root. -/
def rglobAll (t : PyTree) : List (List String) :=
  t.files ++ t.dirs

/-- `d` is a proper ancestor directory of `q`. -/
def properAncestor : List String → List String → Bool
  | [], [] => false
  | [], _ :: _ => true
  | _ :: _, [] => false
  | a :: as, b :: bs => a = b && properAncestor as bs

/-- Whether directory `d` still has any entry below it, i.e. whether
`d.rmdir()` would raise `OSError` (directory not empty). -/
def dirNonempty (t : PyTree) (d : List String) : Bool :=
  t.files.any (properAncestor d) || t.dirs.any (properAncestor d)

/-- The file-deletion loop (lines 213-216): it consumes the whole
`pathiter` generator, unlinking every file that is neither in the
manifest nor in the exclusion list. -/
def deleteOrphanFiles (t : PyTree) (keep exclude : List (List String)) : PyTree :=
  ⟨t.files.filter (fun p => keep.contains p || exclude.contains p), t.dirs⟩

/-- The directory-deletion loop (lines 218-224), over whatever elements
the iterator still yields: remove each existing, unexcluded directory
whose `rmdir` succeeds, ignoring the `OSError` of a non-empty one. -/
def removeEmptyDirs (t : PyTree) (exclude : List (List String))
    (remaining : List (List String)) : PyTree :=
  remaining.foldl
    (fun acc d =>
      if acc.dirs.contains d && !exclude.contains d && !dirNonempty acc d then
        ⟨acc.files, acc.dirs.filter (fun e => !(e == d))⟩
      else acc)
    t

/-- The whole strict prune pass (lines 208-224).  `pathiter` is a single
generator object: the first `for` loop exhausts it, so the second loop
iterates over nothing — hence `removeEmptyDirs` receives `[]`. -/
def clientPruneStrict (t : PyTree) (keep exclude : List (List String)) : PyTree :=
  let t1 := deleteOrphanFiles t keep exclude
  removeEmptyDirs t1 exclude []

/-! ## Python call compatibility of `Librarian.sync` with
`SyncClient.start` -/

/-- The keyword-usable parameters of `SyncClient.start`
(sync.py lines 193-199). -/
def syncClientStartParams : List String :=
  ["directory", "server_addr", "exclude_paths", "strict"]

/-- The keyword arguments `Librarian.sync` passes to `SyncClient.start`
(librarian.py lines 213-219). -/
def librarianSyncClientArgs : List String :=
  ["directory", "server_addr", "exclude_paths", "exclude_patterns", "strict"]

/-- A Python keyword call binds only when every keyword names a
parameter; an unknown keyword raises `TypeError` before the body runs. -/
def kwCallBinds (params args : List String) : Bool :=
  args.all params.contains

/-! ### Decode/encode round trip -/

theorem beToNat_append (xs : List Nat) (b : Nat) :
    beToNat (xs ++ [b]) = beToNat xs * 256 + b := by
  simp [beToNat, List.foldl_append]

theorem natToBE_length (w n : Nat) : (natToBE w n).length = w := by
  induction w generalizing n with
  | zero => simp [natToBE]
  | succ w ih => simp [natToBE, ih]

theorem beToNat_natToBE (w n : Nat) (h : n < 256 ^ w) :
    beToNat (natToBE w n) = n := by
  induction w generalizing n with
  | zero =>
    simp [natToBE, beToNat]
    omega
  | succ w ih =>
    have hdiv : n / 256 < 256 ^ w := by
      rw [Nat.div_lt_iff_lt_mul (by norm_num)]
      calc n < 256 ^ (w + 1) := h
        _ = 256 ^ w * 256 := by ring
    rw [natToBE, beToNat_append, ih _ hdiv]
    omega

theorem beToNat_natToBE8 (n : Nat) (h : n < 2 ^ 64) :
    beToNat (natToBE8 n) = n := by
  have : n < 256 ^ 8 := by norm_num at h ⊢; omega
  exact beToNat_natToBE 8 n this

/-- The receive loop, given any fragmentation schedule whose entries are
positive and whose length suffices, returns exactly the first
`target - acc.length` missing bytes of the stream, leaving the rest. -/
theorem recvLoop_spec (cap : Nat) (hcap : 1 ≤ cap) :
    ∀ (sched : List Nat) (stream : List Nat) (target : Nat) (acc : List Nat),
    (∀ k ∈ sched, 1 ≤ k) →
    target ≤ acc.length + stream.length →
    target ≤ acc.length + sched.length →
    ∃ sched', (∀ k ∈ sched', 1 ≤ k) ∧
      sched.length ≤ sched'.length + (target - acc.length) ∧
      recvLoop cap sched stream target acc =
        some (acc ++ stream.take (target - acc.length),
              stream.drop (target - acc.length), sched') := by
  intro sched
  induction sched with
  | nil =>
    intro stream target acc _ _ hlen
    simp only [List.length_nil, Nat.add_zero] at hlen
    refine ⟨[], by simp, by simp, ?_⟩
    rw [recvLoop, if_pos hlen]
    have : target - acc.length = 0 := by omega
    simp [this]
  | cons k sched' ih =>
    intro stream target acc hpos hstream hsched
    by_cases hdone : target ≤ acc.length
    · refine ⟨k :: sched', hpos, by omega, ?_⟩
      rw [recvLoop, if_pos hdone]
      have : target - acc.length = 0 := by omega
      simp [this]
    · have hk : 1 ≤ k := hpos k (by simp)
      have hneed : 1 ≤ target - acc.length := by omega
      have hstr : 1 ≤ stream.length := by omega
      simp only [List.length_cons] at hsched
      have ht : min (min k (min (target - acc.length) cap)) stream.length ≠ 0 := by
        omega
      rw [recvLoop, if_neg hdone]
      simp only [ht, if_false]
      set t := min (min k (min (target - acc.length) cap)) stream.length with htdef
      have htpos : 1 ≤ t := by rw [htdef]; omega
      have htle : t ≤ stream.length := by rw [htdef]; omega
      have htneed : t ≤ target - acc.length := by rw [htdef]; omega
      have hlen : (acc ++ stream.take t).length = acc.length + t := by
        rw [List.length_append, List.length_take]
        omega
      obtain ⟨sched'', hpos'', hlen'', heq⟩ :=
        ih (stream.drop t) target (acc ++ stream.take t)
          (fun m hm => hpos m (by simp [hm]))
          (by rw [hlen, List.length_drop]; omega)
          (by rw [hlen]; omega)
      rw [hlen] at hlen''
      refine ⟨sched'', hpos'', by simp only [List.length_cons]; omega, ?_⟩
      rw [heq]
      have hsub : target - (acc ++ stream.take t).length =
          target - acc.length - t := by
        rw [hlen]
        omega
      rw [hsub]
      simp only [Option.some.injEq, Prod.mk.injEq]
      refine ⟨?_, ?_, trivial⟩
      · rw [List.append_assoc]
        congr 1
        rw [← List.take_add]
        congr 1
        omega
      · rw [List.drop_drop]
        congr 1
        omega

/-- Claim C8: for every byte sequence `x` (the empty sequence included),
writing `x` as an unencrypted frame with `send_bytes` — an 8-byte
big-endian length header followed by exactly that many payload bytes —
and then reading a frame from the resulting byte stream with
`receive_bytes` reproduces `x` exactly (and leaves the rest of the
stream untouched), regardless of how the stream fragments into reads:
any per-read fragmentation schedule with positive bounds and enough
entries for the blocking loops to finish yields the same payload. -/
theorem C8_frame_roundtrip (x rest sched : List Nat)
    (hlen : x.length < 2 ^ 64)
    (hpos : ∀ k ∈ sched, 1 ≤ k)
    (hsched : 8 + x.length ≤ sched.length) :
    ∃ sched', receiveBytesPlain sched (sendBytesPlain x ++ rest) =
      some (x, rest, sched') := by
  have hbe : (natToBE8 x.length).length = 8 := natToBE_length 8 x.length
  have hstream : (sendBytesPlain x ++ rest).length = 8 + x.length + rest.length := by
    simp only [sendBytesPlain, natToBE8, List.length_append, natToBE_length]
  have hhead : (sendBytesPlain x ++ rest).take 8 = natToBE8 x.length := by
    rw [sendBytesPlain, List.append_assoc]
    exact List.take_left' hbe
  have htail : (sendBytesPlain x ++ rest).drop 8 = x ++ rest := by
    rw [sendBytesPlain, List.append_assoc]
    exact List.drop_left' hbe
  obtain ⟨sched1, hpos1, hlen1, h1⟩ :=
    recvLoop_spec 8 (by norm_num) sched (sendBytesPlain x ++ rest) 8 []
      hpos (by simp only [List.length_nil, Nat.zero_add]; omega)
      (by simp only [List.length_nil, Nat.zero_add]; omega)
  simp only [List.length_nil, Nat.sub_zero, List.nil_append] at h1 hlen1
  obtain ⟨sched2, _, _, h2⟩ :=
    recvLoop_spec (2 ^ 20) (by norm_num) sched1 (x ++ rest) x.length []
      hpos1 (by simp only [List.length_nil, Nat.zero_add, List.length_append]; omega)
      (by simp only [List.length_nil, Nat.zero_add]; omega)
  simp only [List.length_nil, Nat.sub_zero, List.nil_append] at h2
  have hnum : receiveNumBytes sched (sendBytesPlain x ++ rest) =
      some (x.length, x ++ rest, sched1) := by
    rw [receiveNumBytes, h1]
    show some (beToNat ((sendBytesPlain x ++ rest).take 8),
      (sendBytesPlain x ++ rest).drop 8, sched1) = _
    rw [hhead, htail, beToNat_natToBE8 x.length hlen]
  refine ⟨sched2, ?_⟩
  rw [receiveBytesPlain, hnum]
  show (match recvLoop (2 ^ 20) sched1 (x ++ rest) x.length [] with
    | none => none
    | some (data, stream'', sched'') => some (data, stream'', sched'')) = _
  rw [h2]
  show some ((x ++ rest).take x.length, (x ++ rest).drop x.length, sched2) = _
  rw [List.take_left, List.drop_left]

/-- Witness for C8 at a concrete payload and fragmentation schedule. -/
theorem C8_frame_roundtrip_witness :
    ∃ sched', receiveBytesPlain [3, 4, 2, 1, 5, 8, 8, 8, 8, 8] (sendBytesPlain [7, 11] ++ [9]) =
      some ([7, 11], [9], sched') :=
  C8_frame_roundtrip [7, 11] [9] [3, 4, 2, 1, 5, 8, 8, 8, 8, 8]
    (by norm_num) (by decide) (by norm_num)

/-- Claim C10: `send_num_bytes` raises `ValueError` exactly when
`amount < 0` or `amount > 2 ^ 64`; every `amount` in `[0, 2 ^ 64 - 1]`
passes the guard and has a well-defined 8-byte big-endian encoding that
decodes back to `amount`, while the boundary value `amount = 2 ^ 64`
escapes the guard even though `struct.pack(">Q", ·)` cannot encode it. -/
theorem C10_send_num_bytes_guard :
    (∀ amount : Int, sendNumBytesRaises amount = true ↔
      (amount < 0 ∨ amount > 2 ^ 64)) ∧
    (∀ amount : Nat, amount ≤ 2 ^ 64 - 1 →
      sendNumBytesRaises amount = false ∧
      structPackQ amount = some (natToBE8 amount) ∧
      beToNat (natToBE8 amount) = amount) ∧
    sendNumBytesRaises ((2 : Int) ^ 64) = false ∧
    structPackQ (2 ^ 64) = none := by
  refine ⟨?_, ?_, ?_, ?_⟩
  · intro amount
    simp only [sendNumBytesRaises, Bool.or_eq_true, decide_eq_true_eq]
  · intro amount hamount
    have hlt : amount < 2 ^ 64 := by omega
    refine ⟨?_, ?_, beToNat_natToBE8 amount hlt⟩
    · simp only [sendNumBytesRaises, Bool.or_eq_false_iff, decide_eq_false_iff_not]
      refine ⟨not_lt.mpr (Int.natCast_nonneg amount), not_lt.mpr ?_⟩
      exact_mod_cast hlt.le
    · rw [structPackQ, if_pos hlt]
  · simp only [sendNumBytesRaises, Bool.or_eq_false_iff, decide_eq_false_iff_not]
    exact ⟨by norm_num, by norm_num⟩
  · rw [structPackQ, if_neg (by omega)]

/-- Witness for C10 at concrete amounts. -/
theorem C10_send_num_bytes_guard_witness :
    sendNumBytesRaises ((300 : Nat)) = false ∧
    structPackQ 300 = some (natToBE8 300) ∧
    beToNat (natToBE8 300) = 300 :=
  C10_send_num_bytes_guard.2.1 300 (by norm_num)

/-! ### Session-level theorems -/

/-- Claim C9: `receive_file` writes the received bytes at the path taken
from the incoming file message itself, with its `directory` parameter
unused, and nothing confines the target to the sync root: for every
received path — absolute paths and paths containing `..` included — the
write lands exactly at `info.path`. -/
theorem C9_receive_file_ignores_directory (info : FileMsg) (data : List Nat)
    (fs : FileMap) (d1 d2 : String) :
    receiveFile info data fs d1 = receiveFile info data fs d2 ∧
    (info.ty = "file" →
      receiveFile info data fs d1 = .ok (writeFile fs info.path data) ∧
      lookupFile (writeFile fs info.path data) info.path = some data) := by
  refine ⟨rfl, fun h => ⟨?_, ?_⟩⟩
  · rw [receiveFile, if_pos h]
  · simp [lookupFile, writeFile]

/-- Witness for C9: a traversal path escapes the sync root untouched. -/
theorem C9_receive_file_ignores_directory_witness :
    receiveFile ⟨"file", "../../etc/passwd"⟩ [42] [] "syncroot" =
      .ok (writeFile [] "../../etc/passwd" [42]) ∧
    lookupFile (writeFile [] "../../etc/passwd" [42]) "../../etc/passwd" =
      some [42] :=
  (C9_receive_file_ignores_directory ⟨"file", "../../etc/passwd"⟩ [42] []
    "syncroot" "elsewhere").2 rfl

/-- Claim C2: whenever the hash the client receives — the sha256 of the
server's derived key — differs from the hash of the client's own derived
key (as it does when the passwords differ), `client_handshake` raises
`PasswordMismatch` and the session aborts before any manifest, per-file
or file-data message is sent or received: the run sends nothing, leaves
the tree untouched, and its outcome does not depend on what the server
would have sent. -/
theorem C2_password_mismatch_aborts
    (kdfKey : String → List Nat → String) (sha256hex : String → String)
    (hashC : List Nat → String) (cpw spw : String) (salt : List Nat)
    (excludePaths : List String) (strict : Bool) (incoming : List SMsg)
    (fs : FileMap)
    (hne : sha256hex (kdfKey spw salt) ≠ sha256hex (kdfKey cpw salt)) :
    clientStart kdfKey sha256hex hashC cpw spw salt excludePaths strict
      incoming fs = ⟨[], fs, .error .passwordMismatch, 0⟩ := by
  simp only [clientStart, clientHandshake, serverHandshakeHash]
  rw [if_pos hne]

/-- Witness for C2 at concrete derivation functions and passwords. -/
theorem C2_password_mismatch_aborts_witness :
    clientStart (fun p _ => p) (fun s => s) (fun _ => "h") "alice" "bob"
      [] [] false [] [] = ⟨[], [], .error .passwordMismatch, 0⟩ :=
  C2_password_mismatch_aborts (fun p _ => p) (fun s => s) (fun _ => "h")
    "alice" "bob" [] [] false [] [] (by decide)

/-- Counterexample to claim C7: the server closes the stream
mid-transfer — after the client sent `wanted: true` for the offer of
`"a"` and before any file message arrived — yet the fetch phase ends
with `.ok` (the `except SocketClosedError: pass` arm catches it), not
with a fatal error surfacing to the application. -/
theorem C7_mid_transfer_close_counterexample :
    clientFetchPhase (fun _ => "h") [] [.offer "a" "h1"] [] =
      ⟨[.wanted true], [], .ok (), 1⟩ := by
  simp [clientFetchPhase, clientLoopRaw, clientGetFileStep, lookupFile]

/-- Claim C7 (amended): every `ConnectionClosed` raised inside the
client's fetch loop — at a loop boundary or mid-transfer alike — is
caught by the `except SocketClosedError` handler and treated as normal
termination; the fetch phase never surfaces `SocketClosedError`. -/
theorem C7_fetch_loop_swallows_connection_closed
    (hashC : List Nat → String) (excludePaths : List String)
    (incoming : List SMsg) (fs : FileMap) :
    (clientFetchPhase hashC excludePaths incoming fs).res ≠
      .error .socketClosed := by
  rw [clientFetchPhase]
  cases h : (clientLoopRaw hashC excludePaths incoming fs).res with
  | ok u => simp [h]
  | error e => cases e <;> simp [h]

/-- Witness for C7 (amended) at a concrete run. -/
theorem C7_fetch_loop_swallows_connection_closed_witness :
    (clientFetchPhase (fun _ => "h") [] [] []).res ≠
      .error .socketClosed :=
  C7_fetch_loop_swallows_connection_closed (fun _ => "h") [] [] []

/-- Counterexample to claim C4: the client closes the stream while the
server is inside its per-file loop (no reply to the offer of `"a"`);
the resulting `SocketClosedError` is not caught — only
`KeyboardInterrupt` is — so it propagates to the invoking application,
and `server_socket.close()` on line 173 never runs. -/
theorem C4_connection_closed_counterexample :
    (serverStart (fun _ => "h") [("a", [1])] [.strictMsg false]).res =
      .error .socketClosed ∧
    (serverStart (fun _ => "h") [("a", [1])] [.strictMsg false]).listenCloses
      = 0 := by
  decide

/-- Claim C4 (amended): a `ConnectionClosed` raised inside the server's
try body propagates to the invoking application; the `finally` closes
the accepted connection socket exactly once, but the listening socket is
not closed.  Only a `KeyboardInterrupt` is converted into an orderly
shutdown that closes both sockets. -/
theorem C4_connection_closed_propagates (hashC : List Nat → String)
    (files : List (String × List Nat)) (incoming : List CMsg)
    (hclosed : (serverBodyRaw hashC files incoming).1 = .error .socketClosed) :
    serverStart hashC files incoming =
      ⟨(serverBodyRaw hashC files incoming).2, .error .socketClosed, 1, 0⟩ ∧
    ∀ cin2, (serverBodyRaw hashC files cin2).1 = .error .keyboardInterrupt →
      serverStart hashC files cin2 =
        ⟨(serverBodyRaw hashC files cin2).2, .ok (), 1, 1⟩ := by
  constructor
  · simp only [serverStart]
    rw [hclosed]
  · intro cin2 hint
    simp only [serverStart]
    rw [hint]

/-- Witness for C4 (amended) at a concrete interrupted run. -/
theorem C4_connection_closed_propagates_witness :
    serverStart (fun _ => "h") [("a", [1])] [.strictMsg false] =
      ⟨(serverBodyRaw (fun _ => "h") [("a", [1])] [.strictMsg false]).2,
        .error .socketClosed, 1, 0⟩ :=
  (C4_connection_closed_propagates (fun _ => "h") [("a", [1])]
    [.strictMsg false] (by decide)).1

/-- Claim C3 is false on the code: after the strict prune deletes the
only file `b/c.txt` (empty manifest, no exclusions), directory `b`
contains no files and is not excluded — yet it still exists when pruning
finishes, because the directory-removal loop iterates the `pathiter`
generator that the file-deletion loop already exhausted.  The second
conjunct shows the same loop body would have removed `b` had the
iterator still yielded it. -/
theorem C3_empty_dir_survives_prune :
    clientPruneStrict ⟨[["b", "c.txt"]], [["b"]]⟩ [] [] = ⟨[], [["b"]]⟩ ∧
    removeEmptyDirs ⟨[], [["b"]]⟩ [] [["b"]] = ⟨[], []⟩ := by
  decide

/-- Claim C5 is false on the code: `SyncClient.start` has no
`exclude_patterns` parameter (and matches exclusions by exact path
only), yet its caller `Librarian.sync` passes one, so the keyword call
raises `TypeError` before any connection is made. -/
theorem C5_exclude_patterns_not_accepted :
    syncClientStartParams.contains "exclude_patterns" = false ∧
    librarianSyncClientArgs.contains "exclude_patterns" = true ∧
    kwCallBinds syncClientStartParams librarianSyncClientArgs = false := by
  decide

/-- Counterexample to claim C6: with mismatched passwords the client's
handshake raises `PasswordMismatch` before the `try/finally` protecting
the socket is entered, and the client socket is closed zero times, not
exactly once. -/
theorem C6_mismatch_leaves_socket_open :
    (clientStart (fun p _ => p) (fun s => s) (fun _ => "h") "alice" "bob"
      [] [] false [] []).socketCloses = 0 := by
  decide

/-- Claim C6 (amended): each socket is closed exactly once on the exit
paths that reach its owner's `try/finally`: the client closes its socket
exactly once whenever the handshake succeeds and the session reaches the
fetch loop (any non-strict session, or a strict one whose manifest
arrives), and the server closes the accepted connection socket exactly
once on every path of its try statement; but a `PasswordMismatch` during
the client handshake exits without closing the client socket, and the
listening socket is closed only when nothing other than
`KeyboardInterrupt` escapes the server's try body. -/
theorem C6_socket_ownership_amended
    (kdfKey : String → List Nat → String) (sha256hex : String → String)
    (hashC : List Nat → String) (cpw spw : String) (salt : List Nat)
    (ex : List String) (incoming : List SMsg) (fs : FileMap)
    (ps : List String) (rest : List SMsg)
    (files : List (String × List Nat)) (cin : List CMsg)
    (hmatch : sha256hex (kdfKey spw salt) = sha256hex (kdfKey cpw salt)) :
    (clientStart kdfKey sha256hex hashC cpw spw salt ex false incoming
      fs).socketCloses = 1 ∧
    (clientStart kdfKey sha256hex hashC cpw spw salt ex true
      (.pathsMsg ps :: rest) fs).socketCloses = 1 ∧
    (serverStart hashC files cin).connCloses = 1 := by
  refine ⟨?_, ?_, ?_⟩
  · simp only [clientStart, clientHandshake, serverHandshakeHash]
    rw [if_neg (not_not_intro hmatch)]
    simp [clientFetchPhase]
  · simp only [clientStart, clientHandshake, serverHandshakeHash]
    rw [if_neg (not_not_intro hmatch)]
    simp [clientFetchPhase]
  · simp only [serverStart]
    cases h : (serverBodyRaw hashC files cin).1 with
    | ok u => rfl
    | error e => cases e <;> rfl

/-- Witness for C6 (amended) at concrete sessions. -/
theorem C6_socket_ownership_amended_witness :
    (clientStart (fun p _ => p) (fun s => s) (fun _ => "h") "pw" "pw" []
      [] false [] []).socketCloses = 1 ∧
    (clientStart (fun p _ => p) (fun s => s) (fun _ => "h") "pw" "pw" []
      [] true (.pathsMsg [] :: []) []).socketCloses = 1 ∧
    (serverStart (fun _ => "h") [] []).connCloses = 1 :=
  C6_socket_ownership_amended (fun p _ => p) (fun s => s) (fun _ => "h")
    "pw" "pw" [] [] [] [] [] [] [] [] rfl

/-! ### The non-strict full session (Claim C1) -/

theorem lookupFile_eq_none_of_not_mem (files : FileMap) (q : String)
    (h : q ∉ files.map Prod.fst) : lookupFile files q = none := by
  induction files with
  | nil => rfl
  | cons f files ih =>
    obtain ⟨p, c⟩ := f
    simp only [List.map_cons, List.mem_cons, not_or] at h
    rw [lookupFile, if_neg (fun he => h.1 he.symm)]
    exact ih h.2

/-- The client's fetch loop, fed the transcript the server produces,
follows exactly the decisions recorded in the transcript: it ends with
the terminal `SocketClosedError`, its tree is the transcript's final
tree, and it sends the transcript's replies. -/
theorem clientLoopRaw_on_trace (hashC : List Nat → String) :
    ∀ (files : List (String × List Nat)) (fs : FileMap),
    clientLoopRaw hashC [] (sessionTrace hashC files fs).1 fs =
      ⟨.error .socketClosed, (sessionTrace hashC files fs).2.2,
        (sessionTrace hashC files fs).2.1⟩ := by
  intro files
  induction files with
  | nil => intro fs; simp [sessionTrace, clientLoopRaw]
  | cons f files ih =>
    intro fs
    obtain ⟨p, c⟩ := f
    rw [sessionTrace]
    cases hlook : lookupFile fs p with
    | none => simp [clientLoopRaw, clientGetFileStep, hlook, ih]
    | some c0 =>
      by_cases hne : hashC c0 ≠ hashC c
      · simp [clientLoopRaw, clientGetFileStep, hlook, hne, ih]
      · rw [not_not] at hne
        simp [clientLoopRaw, hlook, hne, ih]

/-- The server's per-file loop, fed the client replies recorded in the
transcript, completes normally and sends exactly the transcript's
messages. -/
theorem serverLoopRaw_on_trace (hashC : List Nat → String) :
    ∀ (files : List (String × List Nat)) (fs : FileMap),
    serverLoopRaw hashC files (sessionTrace hashC files fs).2.1 =
      (.ok (), (sessionTrace hashC files fs).1) := by
  intro files
  induction files with
  | nil => intro fs; rfl
  | cons f files ih =>
    intro fs
    obtain ⟨p, c⟩ := f
    rw [sessionTrace]
    cases hlook : lookupFile fs p with
    | none => simp [serverLoopRaw, serverRecvInfo, ih]
    | some c0 =>
      by_cases hne : hashC c0 ≠ hashC c
      · simp [serverLoopRaw, serverRecvInfo, hne, ih]
      · simp [serverLoopRaw, serverRecvInfo, hne, ih]

/-- The transcript's final client tree holds, for every path the server
enumerated, the server's content, and elsewhere whatever the client had
before. -/
theorem sessionTrace_lookup (hashC : List Nat → String) :
    ∀ (files : List (String × List Nat)) (fs : FileMap),
    (files.map Prod.fst).Nodup →
    (∀ q ∈ files.map Prod.fst, lookupFile fs q = none) →
    ∀ p, lookupFile (sessionTrace hashC files fs).2.2 p =
      (lookupFile files p).or (lookupFile fs p) := by
  intro files
  induction files with
  | nil =>
    intro fs _ _ p
    simp [sessionTrace, lookupFile]
  | cons f files ih =>
    intro fs hnodup hnone p
    obtain ⟨q, c⟩ := f
    have hq : lookupFile fs q = none := hnone q (by simp)
    simp only [List.map_cons, List.nodup_cons] at hnodup
    have hqnotin : q ∉ files.map Prod.fst := hnodup.1
    have hnone2 : ∀ r ∈ files.map Prod.fst,
        lookupFile (writeFile fs q c) r = none := by
      intro r hr
      have hqr : ¬ q = r := by
        intro he
        rw [he] at hqnotin
        exact hqnotin hr
      rw [writeFile, lookupFile, if_neg hqr]
      exact hnone r (by simp [hr])
    have hrec := ih (writeFile fs q c) hnodup.2 hnone2 p
    rw [sessionTrace]
    simp only [hq]
    simp only [writeFile] at hrec
    simp only [writeFile]
    by_cases hpq : q = p
    · subst hpq
      simp [hrec, lookupFile_eq_none_of_not_mem files q hqnotin, lookupFile]
    · simp [hrec, lookupFile, hpq]

/-- Claim C1: a non-strict session between a server holding `files`
(distinct relative paths, as `rglob` enumerates) and a client starting
from an empty tree runs to completion on both sides — the server ends
normally, closing both its sockets, and the client ends normally on the
terminal `ConnectionClosed` — and afterwards the client's tree equals
the server's byte-for-byte: every enumerated file is present at the same
relative path with identical content, and nothing else. -/
theorem C1_nonstrict_sync_copies_server_tree
    (kdfKey : String → List Nat → String) (sha256hex : String → String)
    (hashC : List Nat → String) (pw : String) (salt : List Nat)
    (files : List (String × List Nat))
    (hnodup : (files.map Prod.fst).Nodup) :
    serverStart hashC files
        (.strictMsg false :: (sessionTrace hashC files []).2.1) =
      ⟨(sessionTrace hashC files []).1, .ok (), 1, 1⟩ ∧
    clientStart kdfKey sha256hex hashC pw pw salt [] false
        (sessionTrace hashC files []).1 [] =
      ⟨.strictMsg false :: (sessionTrace hashC files []).2.1,
        (sessionTrace hashC files []).2.2, .ok (), 1⟩ ∧
    ∀ p, lookupFile (sessionTrace hashC files []).2.2 p =
      lookupFile files p := by
  refine ⟨?_, ?_, ?_⟩
  · simp only [serverStart, serverBodyRaw, serverRecvInfo,
      serverLoopRaw_on_trace]
    simp
  · simp only [clientStart, clientHandshake, serverHandshakeHash]
    rw [if_neg (not_not_intro rfl)]
    simp only [clientFetchPhase, clientLoopRaw_on_trace]
    simp
  · intro p
    have h := sessionTrace_lookup hashC files [] hnodup
      (fun q _ => rfl) p
    simpa [lookupFile] using h

/-- Witness for C1: Scenario A, server tree
`a.txt: "hello"`, `b/c.txt: "world"`, client initially empty. -/
theorem C1_nonstrict_sync_copies_server_tree_witness :
    serverStart (fun _ => "h") scenarioAFiles
        (.strictMsg false ::
          (sessionTrace (fun _ => "h") scenarioAFiles []).2.1) =
      ⟨(sessionTrace (fun _ => "h") scenarioAFiles []).1, .ok (), 1, 1⟩ ∧
    clientStart (fun p _ => p) (fun s => s) (fun _ => "h") "pw" "pw" []
        [] false (sessionTrace (fun _ => "h") scenarioAFiles []).1 [] =
      ⟨.strictMsg false ::
          (sessionTrace (fun _ => "h") scenarioAFiles []).2.1,
        (sessionTrace (fun _ => "h") scenarioAFiles []).2.2, .ok (), 1⟩ :=
  ⟨(C1_nonstrict_sync_copies_server_tree (fun p _ => p) (fun s => s)
      (fun _ => "h") "pw" [] scenarioAFiles (by decide)).1,
    (C1_nonstrict_sync_copies_server_tree (fun p _ => p) (fun s => s)
      (fun _ => "h") "pw" [] scenarioAFiles (by decide)).2.1⟩

end BookshelfSync
